import Mathlib

/-!
Verification of the data-transform layer of the five-texases repository:
the color classifier `get_color` and region highlighter `grey_out` from
`utils.py`, and the state filter `get_data` and result-series extractor
`get_results` from `parsing.py`.

Margin values are modelled as rationals (the Python code manipulates them
with comparisons, negation, and addition/subtraction only, all exact on the
concrete decimal inputs involved). Fallible code paths (a Python function
falling off the end and returning `None`, or an `IndexError` on `.iloc[0]`
of an empty selection) are modelled with `Option`.
-/

/-- Palette for negative margins (side A), `COLORS_D` in `utils.py`. -/
def COLORS_D : List String := ["#86B6F2", "#4389E3", "#1666CB", "#0645B4", "#002B84"]

/-- Palette for positive margins (side B), `COLORS_R` in `utils.py`. -/
def COLORS_R : List String := ["#E27F90", "#CC2F4A", "#D40000", "#AA0000", "#800000"]

/-- Neutral grey, `COLOR_GREY` in `utils.py`. -/
def COLOR_GREY : String := "#D6D6D6"

/-- Threshold table, `THRESH_MARGIN` in both `utils.py` and `parsing.py`. -/
def THRESH_MARGIN : List ℚ := [50, 60, 70, 80, 90, 100]

/-- Python `abs` on a (rational-modelled) float. -/
def rabs (v : ℚ) : ℚ := if v < 0 then -v else v

/-- The loop of `get_color` (`utils.py` lines 36-39):
`for i, (left, right) in enumerate(zip(thresh, thresh[1:]))`, returning
`colors[i]` at the first band with `left < abs(value) <= right`.
The index `i` is threaded explicitly; `colors.getD i ""` is Python `colors[i]`
(in every reachable use `i` is in range, so the `""` default is never hit). -/
def scanBands (v : ℚ) (colors : List String) : ℕ → List (ℚ × ℚ) → Option String
  | _, [] => none
  | i, (left, right) :: rest =>
    if left < rabs v ∧ rabs v ≤ right then some (colors.getD i "")
    else scanBands v colors (i + 1) rest

/-- Embedding of `get_color` (`utils.py` lines 15-41). The palette is chosen by
sign (`COLORS_D` if `value < 0` else `COLORS_R`); then the band scan runs; after
it, Python checks `if value > thresh[-1]: return colors[-1]` — note the SIGNED
`value` there, not `abs(value)` — and otherwise falls off the end, returning
`None` (modelled as `none`). `thresh.getLast?` matching `none` models the
`IndexError` of `thresh[-1]` on an empty threshold list. -/
def get_color (value : ℚ) (thresh : List ℚ) : Option String :=
  let colors := if value < 0 then COLORS_D else COLORS_R
  match scanBands value colors 0 (thresh.zip thresh.tail) with
  | some c => some c
  | none =>
    match thresh.getLast? with
    | some last => if last < value then colors.getLast? else none
    | none => none

/-- Embedding of `grey_out` (`utils.py` lines 57-73):
`return color if name == colored_name else color_grey`. Polymorphic in the
cell value because Python passes it both plain color strings and the
possibly-`None` output of `get_color`. -/
def grey_out {α : Type} (name : String) (color : α) (colored_name : String)
    (color_grey : α) : α :=
  if name = colored_name then color else color_grey

/-- One row of the results table: columns `unit`, `state`, `is_state` and the
trailing per-year margin columns (6 in the real table; `margins` keeps them in
table order). -/
structure Row where
  unit : String
  state : String
  is_state : ℕ
  margins : List ℚ
  deriving DecidableEq

/-- A row after `get_data` has replaced every year column with a color cell
(`none` models Python `None`, possible when the margin is below the lowest
band). -/
structure RowC where
  unit : String
  state : String
  is_state : ℕ
  colors : List (Option String)
  deriving DecidableEq

/-- Boolean mask of `get_data` (`parsing.py` line 20):
`((data["state"] == state) | (data["is_state"] == 1)) & (data["unit"] != state)`. -/
def rowMask (st : String) (r : Row) : Bool :=
  (r.state == st || r.is_state == 1) && r.unit != st

/-- The per-row effect of the `for year in YEARS` loop of `get_data`
(`parsing.py` lines 22-27): each year cell is classified with `get_color`
and then passed through `grey_out` with the row's own `state` column against
the target state. -/
def transformRow (st : String) (r : Row) : RowC :=
  { unit := r.unit, state := r.state, is_state := r.is_state,
    colors := r.margins.map (fun v =>
      grey_out r.state (get_color v THRESH_MARGIN) st (some COLOR_GREY)) }

/-- Embedding of `get_data` (`parsing.py` lines 8-28): filter by the mask, then
transform every year column of the selected rows. -/
def get_data (data : List Row) (st : String) : List RowC :=
  (data.filter (rowMask st)).map (transformRow st)

/-- State-passing version of `get_data`, returning alongside the result the
input table as it stands after the call. Pandas boolean-mask selection
(`data[conditions]`) returns a new frame that does not alias `data`, and the
in-place column assignments inside the loop write to that copy only, so the
source table comes back unchanged. -/
def get_dataS (data : List Row) (st : String) : List RowC × List Row :=
  let state_data := data.filter (rowMask st)
  let out := state_data.map (transformRow st)
  (out, data)

/-- Python `results[-6:]` (`parsing.py` line 43): the last six entries (the
whole list when it is shorter). -/
def lastSix (l : List ℚ) : List ℚ := l.drop (l.length - 6)

/-- The series derivation of `get_results` (`parsing.py` lines 43-46) applied
to one row's year margins: `d_results = [abs(i) if i < 0 else 100-i]`,
`r_results = [100+i if i < 0 else i]` over `results[-6:]`. -/
def seriesOf (margins : List ℚ) : List ℚ × List ℚ :=
  let results := lastSix margins
  (results.map (fun i => if i < 0 then rabs i else 100 - i),
   results.map (fun i => if i < 0 then 100 + i else i))

/-- Embedding of `get_results` (`parsing.py` lines 31-46):
`data[data["unit"] == state].iloc[0]` takes the first row whose `unit` equals
the state (`List.find?`); an empty selection raises `IndexError`, modelled as
`none`. -/
def get_results (data : List Row) (st : String) : Option (List ℚ × List ℚ) :=
  (data.find? (fun r => r.unit == st)).map (fun r => seriesOf r.margins)

/-! Helper lemmas. -/

lemma rabs_eq_abs (v : ℚ) : rabs v = |v| := by
  rcases lt_or_le v 0 with h | h
  · simp [rabs, h, abs_of_neg h]
  · simp [rabs, not_lt.mpr h, abs_of_nonneg h]

lemma thresh_zip_eq : THRESH_MARGIN.zip THRESH_MARGIN.tail =
    [((50 : ℚ), (60 : ℚ)), (60, 70), (70, 80), (80, 90), (90, 100)] := rfl

lemma thresh_last : THRESH_MARGIN.getLast? = some 100 := rfl

/-- Closed form of `get_color` at the default threshold table: the five bands
in order, then the (signed) beyond-last-threshold guard, then `none`. -/
lemma get_color_default (v : ℚ) :
    get_color v THRESH_MARGIN =
      (if 50 < |v| ∧ |v| ≤ 60 then some ((if v < 0 then COLORS_D else COLORS_R).getD 0 "")
       else if 60 < |v| ∧ |v| ≤ 70 then some ((if v < 0 then COLORS_D else COLORS_R).getD 1 "")
       else if 70 < |v| ∧ |v| ≤ 80 then some ((if v < 0 then COLORS_D else COLORS_R).getD 2 "")
       else if 80 < |v| ∧ |v| ≤ 90 then some ((if v < 0 then COLORS_D else COLORS_R).getD 3 "")
       else if 90 < |v| ∧ |v| ≤ 100 then some ((if v < 0 then COLORS_D else COLORS_R).getD 4 "")
       else if 100 < v then (if v < 0 then COLORS_D else COLORS_R).getLast?
       else none) := by
  by_cases h1 : 50 < |v| ∧ |v| ≤ 60
  · simp [get_color, thresh_zip_eq, scanBands, rabs_eq_abs, h1]
  · by_cases h2 : 60 < |v| ∧ |v| ≤ 70
    · simp [get_color, thresh_zip_eq, scanBands, rabs_eq_abs, h1, h2]
    · by_cases h3 : 70 < |v| ∧ |v| ≤ 80
      · simp [get_color, thresh_zip_eq, scanBands, rabs_eq_abs, h1, h2, h3]
      · by_cases h4 : 80 < |v| ∧ |v| ≤ 90
        · simp [get_color, thresh_zip_eq, scanBands, rabs_eq_abs, h1, h2, h3, h4]
        · by_cases h5 : 90 < |v| ∧ |v| ≤ 100
          · simp [get_color, thresh_zip_eq, scanBands, rabs_eq_abs, h1, h2, h3, h4, h5]
          · by_cases h6 : 100 < v
            · simp [get_color, thresh_zip_eq, scanBands, rabs_eq_abs, thresh_last,
                h1, h2, h3, h4, h5, h6]
            · simp [get_color, thresh_zip_eq, scanBands, rabs_eq_abs, thresh_last,
                h1, h2, h3, h4, h5, h6]

/-- Color membership for one band leaf of `get_color`. -/
lemma band_leaf (v : ℚ) (k : ℕ) (hk : k < 5) :
    ∃ c, some ((if v < 0 then COLORS_D else COLORS_R).getD k "") = some c ∧
      c ∈ (if v < 0 then COLORS_D else COLORS_R) ∧ c ∈ COLORS_D ++ COLORS_R := by
  have hD : ∀ j, j < 5 → COLORS_D.getD j "" ∈ COLORS_D ∧
      COLORS_D.getD j "" ∈ COLORS_D ++ COLORS_R := by decide
  have hR : ∀ j, j < 5 → COLORS_R.getD j "" ∈ COLORS_R ∧
      COLORS_R.getD j "" ∈ COLORS_D ++ COLORS_R := by decide
  rcases lt_or_le v 0 with hv | hv
  · simp only [if_pos hv]
    exact ⟨_, rfl, (hD k hk).1, (hD k hk).2⟩
  · simp only [if_neg (not_lt.mpr hv)]
    exact ⟨_, rfl, (hR k hk).1, (hR k hk).2⟩

/-! Claim theorems. -/

/-- C6: for every value with `|v| ≤ 50` (the first threshold), `get_color`
yields no match: no band fires, the beyond-last guard fails, and the function
returns no color at all. -/
theorem get_color_below_first_threshold_none (v : ℚ) (h : |v| ≤ 50) :
    get_color v THRESH_MARGIN = none := by
  have h50 : ¬ (50 : ℚ) < |v| := not_lt.mpr h
  have h60 : ¬ (60 : ℚ) < |v| := not_lt.mpr (h.trans (by norm_num))
  have h70 : ¬ (70 : ℚ) < |v| := not_lt.mpr (h.trans (by norm_num))
  have h80 : ¬ (80 : ℚ) < |v| := not_lt.mpr (h.trans (by norm_num))
  have h90 : ¬ (90 : ℚ) < |v| := not_lt.mpr (h.trans (by norm_num))
  have h100 : ¬ (100 : ℚ) < v :=
    not_lt.mpr ((le_abs_self v).trans (h.trans (by norm_num)))
  rw [get_color_default v, if_neg (fun hc => h50 hc.1), if_neg (fun hc => h60 hc.1),
    if_neg (fun hc => h70 hc.1), if_neg (fun hc => h80 hc.1),
    if_neg (fun hc => h90 hc.1), if_neg h100]

/-- Witness for C6 at `v = 3`. -/
theorem get_color_below_first_threshold_none_witness :
    get_color 3 THRESH_MARGIN = none :=
  get_color_below_first_threshold_none 3 (by norm_num)

/-- C5: band edges are exclusive-low, inclusive-high: `60` lands in band 0
(`50 < 60 ≤ 60`, color `COLORS_R[0]`) while `60.01` lands in band 1
(`60 < 60.01 ≤ 70`, color `COLORS_R[1]`), two different ramp colors. -/
theorem get_color_boundary_bands :
    get_color 60 THRESH_MARGIN = some "#E27F90" ∧
    get_color (6001 / 100) THRESH_MARGIN = some "#CC2F4A" ∧
    ("#E27F90" : String) ≠ "#CC2F4A" := by
  refine ⟨?_, ?_, by decide⟩
  · norm_num [get_color, thresh_zip_eq, scanBands, rabs, COLORS_R]
  · norm_num [get_color, thresh_zip_eq, scanBands, rabs, COLORS_R]

/-- C3 (code behaviour at the failing input): the final guard of `get_color`
tests the SIGNED value (`value > thresh[-1]`), not its absolute value, so a
negative margin beyond the last threshold gets no color: `get_color (-150)`
returns `none`, not the last side-A ramp color `#002B84` the claim requires,
while the positive counterpart `get_color 150` does return the last side-B
ramp color. -/
theorem get_color_beyond_last_threshold_signed_guard :
    (100 : ℚ) < |(-150 : ℚ)| ∧
    get_color (-150) THRESH_MARGIN = none ∧
    COLORS_D.getLast? = some "#002B84" ∧
    get_color 150 THRESH_MARGIN = some "#800000" := by
  refine ⟨by norm_num [abs], ?_, by decide, ?_⟩
  · norm_num [get_color, thresh_zip_eq, scanBands, rabs, thresh_last, COLORS_D]
  · norm_num [get_color, thresh_zip_eq, scanBands, rabs, thresh_last, COLORS_R]

/-- C1: for every value with `50 < |v| ≤ 100` and the default threshold table,
`get_color` returns exactly one color, that color is one of the 10 ramp colors,
and the ramp matches the sign of the value: `COLORS_D` when `v < 0`, `COLORS_R`
otherwise (so for positive `v`). -/
theorem get_color_total_on_valid_margins (v : ℚ) (h1 : 50 < |v|) (h2 : |v| ≤ 100) :
    ∃ c, get_color v THRESH_MARGIN = some c ∧
      c ∈ (if v < 0 then COLORS_D else COLORS_R) ∧ c ∈ COLORS_D ++ COLORS_R := by
  rw [get_color_default v]
  rcases le_or_lt |v| 60 with h60 | h60
  · rw [if_pos ⟨h1, h60⟩]
    exact band_leaf v 0 (by norm_num)
  · rw [if_neg (fun hc => absurd hc.2 (not_le.mpr h60))]
    rcases le_or_lt |v| 70 with h70 | h70
    · rw [if_pos ⟨h60, h70⟩]
      exact band_leaf v 1 (by norm_num)
    · rw [if_neg (fun hc => absurd hc.2 (not_le.mpr h70))]
      rcases le_or_lt |v| 80 with h80 | h80
      · rw [if_pos ⟨h70, h80⟩]
        exact band_leaf v 2 (by norm_num)
      · rw [if_neg (fun hc => absurd hc.2 (not_le.mpr h80))]
        rcases le_or_lt |v| 90 with h90 | h90
        · rw [if_pos ⟨h80, h90⟩]
          exact band_leaf v 3 (by norm_num)
        · rw [if_neg (fun hc => absurd hc.2 (not_le.mpr h90))]
          rw [if_pos ⟨h90, h2⟩]
          exact band_leaf v 4 (by norm_num)

/-- Witness for C1 at `v = -55`: color `#86B6F2`, the first side-A ramp color. -/
theorem get_color_total_on_valid_margins_witness :
    ∃ c, get_color (-55) THRESH_MARGIN = some c ∧
      c ∈ (if (-55 : ℚ) < 0 then COLORS_D else COLORS_R) ∧ c ∈ COLORS_D ++ COLORS_R :=
  get_color_total_on_valid_margins (-55) (by rw [abs_of_neg (by norm_num)]; norm_num)
    (by rw [abs_of_neg (by norm_num)]; norm_num)

/-- C7: the region highlighter returns the classified color unchanged when the
subdivision's owning-state name equals the target state name, and the neutral
grey whenever the two names differ. -/
theorem grey_out_keeps_or_greys (name color other : String) (h : other ≠ name) :
    grey_out name color name COLOR_GREY = color ∧
    grey_out name color other COLOR_GREY = COLOR_GREY := by
  constructor
  · simp [grey_out]
  · simp [grey_out, h.symm]

/-- Witness for C7 at concrete names and color. -/
theorem grey_out_keeps_or_greys_witness :
    grey_out "A" "#123456" "A" COLOR_GREY = "#123456" ∧
    grey_out "A" "#123456" "B" COLOR_GREY = COLOR_GREY :=
  grey_out_keeps_or_greys "A" "#123456" "B" (by decide)

/-- C9: the state filter does not mutate its input. In the state-passing model
of `get_data` (pandas boolean-mask selection copies; the per-year column
assignments write to the copy), the source table after the call equals the
source table before it, and the returned table is `get_data`'s output. -/
theorem get_data_does_not_mutate_input (data : List Row) (st : String) :
    (get_dataS data st).2 = data ∧ (get_dataS data st).1 = get_data data st :=
  ⟨rfl, rfl⟩

/-- C2: membership in the output of `get_data` is exactly the mask
`(state = target ∨ is_state = 1) ∧ unit ≠ target` applied to the input rows
(each selected row coming back color-transformed); hence the target state's
own aggregate row (unit = target) is never included, and every `is_state` row
other than that one is included whatever its owning state. -/
theorem get_data_row_selection (data : List Row) (st : String) :
    (∀ rc ∈ get_data data st, rc.unit ≠ st) ∧
    (∀ r ∈ data, r.is_state = 1 → r.unit ≠ st → transformRow st r ∈ get_data data st) ∧
    (∀ rc, rc ∈ get_data data st ↔
      ∃ r, r ∈ data ∧ ((r.state = st ∨ r.is_state = 1) ∧ r.unit ≠ st) ∧
        rc = transformRow st r) := by
  have hmask : ∀ r : Row,
      rowMask st r = true ↔ ((r.state = st ∨ r.is_state = 1) ∧ r.unit ≠ st) := by
    intro r
    simp [rowMask]
  have key : ∀ rc, rc ∈ get_data data st ↔
      ∃ r, r ∈ data ∧ ((r.state = st ∨ r.is_state = 1) ∧ r.unit ≠ st) ∧
        rc = transformRow st r := by
    intro rc
    simp only [get_data, List.mem_map, List.mem_filter]
    constructor
    · rintro ⟨r, ⟨hr, hm⟩, he⟩
      exact ⟨r, hr, (hmask r).mp hm, he.symm⟩
    · rintro ⟨r, hr, hm, he⟩
      exact ⟨r, ⟨hr, (hmask r).mpr hm⟩, he.symm⟩
  refine ⟨?_, ?_, key⟩
  · intro rc hrc
    obtain ⟨r, _, ⟨_, hu⟩, rfl⟩ := (key rc).mp hrc
    simpa [transformRow] using hu
  · intro r hr h1 hu
    exact (key _).mpr ⟨r, hr, ⟨Or.inr h1, hu⟩, rfl⟩

/-- A county row of state X (sample data). -/
def rowCountyX : Row := ⟨"a", "X", 0, [60]⟩

/-- The aggregate row of state Y (sample data). -/
def rowAggY : Row := ⟨"Y", "Y", 1, [-70]⟩

/-- Witness for C2: another state's aggregate row is kept by the filter. -/
theorem get_data_row_selection_witness :
    transformRow "X" rowAggY ∈ get_data [rowCountyX, rowAggY] "X" :=
  (get_data_row_selection [rowCountyX, rowAggY] "X").2.1 rowAggY (by simp) rfl
    (by decide)

/-- Elementwise sum of the two mapped series. -/
lemma getD_map_pair_sum (f g : ℚ → ℚ) (hfg : ∀ x, f x + g x = 100) :
    ∀ (l : List ℚ) (i : ℕ), i < l.length →
      (l.map f).getD i 0 + (l.map g).getD i 0 = 100 := by
  intro l
  induction l with
  | nil => intro i hi; simp at hi
  | cons a t ih =>
    intro i hi
    cases i with
    | zero => simpa using hfg a
    | succ n => simpa using ih n (by simpa using hi)

/-- C4: whenever `get_results` returns (its matched row carrying the 6 year
columns of the schema), the two series have 6 elements each and satisfy
`sideA[i] + sideB[i] = 100` (exactly, hence within 1e-9) at every index. -/
theorem get_results_series_sum (data : List Row) (st : String)
    (p : List ℚ × List ℚ) (r : Row)
    (hr : data.find? (fun q => q.unit == st) = some r)
    (h6 : r.margins.length = 6) (hp : get_results data st = some p) :
    p.1.length = 6 ∧ p.2.length = 6 ∧
    ∀ i, i < 6 → p.1.getD i 0 + p.2.getD i 0 = 100 := by
  have hps : p = seriesOf r.margins := by
    rw [get_results, hr] at hp
    simpa using hp.symm
  subst hps
  have hl : lastSix r.margins = r.margins := by
    simp [lastSix, h6]
  have hfg : ∀ x : ℚ,
      (if x < 0 then rabs x else 100 - x) + (if x < 0 then 100 + x else x) = 100 := by
    intro x
    rcases lt_or_le x 0 with hx | hx
    · simp only [if_pos hx, rabs, if_pos hx]
      ring
    · simp only [if_neg (not_lt.mpr hx)]
      ring
  refine ⟨by simp [seriesOf, hl, h6], by simp [seriesOf, hl, h6], ?_⟩
  intro i hi
  have hi' : i < r.margins.length := by rw [h6]; exact hi
  simpa [seriesOf, hl] using
    getD_map_pair_sum (fun x => if x < 0 then rabs x else 100 - x)
      (fun x => if x < 0 then 100 + x else x) hfg r.margins i hi'

/-- The aggregate row of a sample state W with six year margins. -/
def rowW : Row := ⟨"W", "W", 1, [10, -20, 55, -65, 75, -95]⟩

/-- Witness for C4 on the sample aggregate row, checked at index 0. -/
theorem get_results_series_sum_witness :
    (seriesOf rowW.margins).1.getD 0 0 + (seriesOf rowW.margins).2.getD 0 0 = 100 :=
  (get_results_series_sum [rowW] "W" (seriesOf rowW.margins) rowW rfl rfl rfl).2.2
    0 (by norm_num)

/-- First-match behaviour of `List.find?` over a split list. -/
lemma find?_first_match (st : String) (r : Row) (post : List Row) :
    ∀ pre : List Row, (∀ q ∈ pre, q.unit ≠ st) → r.unit = st →
      List.find? (fun q => q.unit == st) (pre ++ r :: post) = some r := by
  intro pre
  induction pre with
  | nil =>
    intro _ hr
    simp [List.find?, hr]
  | cons a t ih =>
    intro hpre hr
    have ha : (a.unit == st) = false := by
      simpa using hpre a (by simp)
    simpa [List.find?, ha] using ih (fun q hq => hpre q (by simp [hq])) hr

/-- C10: when no row's `unit` equals the target state, `get_results` fails
(the `.iloc[0]` `IndexError`, modelled as `none`); when a matching row exists,
the series come from the first match in table order. -/
theorem get_results_zero_or_first_match (data : List Row) (st : String) :
    ((∀ r ∈ data, r.unit ≠ st) → get_results data st = none) ∧
    (∀ (pre post : List Row) (r : Row), data = pre ++ r :: post →
      (∀ q ∈ pre, q.unit ≠ st) → r.unit = st →
      get_results data st = some (seriesOf r.margins)) := by
  constructor
  · intro h
    have hn : data.find? (fun r => r.unit == st) = none := by
      rw [List.find?_eq_none]
      intro x hx
      simpa using h x hx
    simp [get_results, hn]
  · intro pre post r hdata hpre hr
    subst hdata
    simp [get_results, find?_first_match st r post pre hpre hr]

/-- A row of another state (sample data). -/
def rowV : Row := ⟨"V", "V", 0, [1]⟩

/-- A second row whose `unit` is also "W" (sample data). -/
def rowW2 : Row := ⟨"W", "W", 1, [2, 3, 4, 5, 6, 7]⟩

/-- Witness for C10: empty match gives `none`; with two rows matching "W",
the first one in table order (`rowW`) is used. -/
theorem get_results_zero_or_first_match_witness :
    get_results [rowV] "W" = none ∧
    get_results [rowV, rowW, rowW2] "W" = some (seriesOf rowW.margins) :=
  ⟨(get_results_zero_or_first_match [rowV] "W").1 (by decide),
   (get_results_zero_or_first_match [rowV, rowW, rowW2] "W").2 [rowV] [rowW2] rowW
     rfl (by decide) rfl⟩

/-- Aggregate row of synthetic state X with single-year margin -65.7. -/
def rowX : Row := ⟨"X", "X", 1, [-657 / 10]⟩

/-- Aggregate row of synthetic state Y with single-year margin 51.3. -/
def rowY : Row := ⟨"Y", "Y", 1, [513 / 10]⟩

/-- The 2-state, 1-year synthetic table of the end-to-end scenario. -/
def tableXY : List Row := [rowX, rowY]

/-- C8: end-to-end scenario: `get_color (-65.7) = #4389E3` and
`get_color 51.3 = #E27F90`; the extractor yields `([65.7], [34.3])` for state X
and `([48.7], [51.3])` for state Y. -/
theorem end_to_end_scenario :
    get_color (-657 / 10) THRESH_MARGIN = some "#4389E3" ∧
    get_color (513 / 10) THRESH_MARGIN = some "#E27F90" ∧
    get_results tableXY "X" = some ([657 / 10], [343 / 10]) ∧
    get_results tableXY "Y" = some ([487 / 10], [513 / 10]) := by
  have hX : get_results tableXY "X" = some (seriesOf [-657 / 10]) := rfl
  have hY : get_results tableXY "Y" = some (seriesOf [513 / 10]) := rfl
  refine ⟨?_, ?_, ?_, ?_⟩
  · norm_num [get_color, thresh_zip_eq, scanBands, rabs, COLORS_D]
  · norm_num [get_color, thresh_zip_eq, scanBands, rabs, COLORS_R]
  · rw [hX]
    norm_num [seriesOf, lastSix, rabs]
  · rw [hY]
    norm_num [seriesOf, lastSix, rabs]
